import Mathlib

/-!
# QuantScanner 2.0 — verification of the gate pipeline

Shallow embedding of the scan pipeline of this repository:
* `SwingFilter.run_pipeline` (src/swing_filter.py) as `QS.runPipeline`,
* the pipeline section of `Orchestrator.run_scan` (src/orchestrator.py) as
  `QS.runScan` with its per-ticker post-processing `QS.processTicker`.

Python dictionaries are embedded as insertion-ordered association lists
(`QS.dlookup` / `QS.dinsert` / `QS.dmerge` mirror `d[k]`, `d[k] = v` and
`{**a, **b}`).  The five gate objects live in the `gates/` package, which is
outside the sources available here; they are taken as abstract parameters
(`QS.Gates`), constrained only where the spec demands it (see
`QS.NarrowGates`).  External libraries (pandas column access, `ta`'s
AverageTrueRange, the chart engine) are taken as oracle parameters; a result
of `none` stands for the exception the library call may raise.
-/

namespace QS

abbrev Ticker := String

/-- `d[k]` for a Python dict embedded as an association list: first binding wins
(dict keys are unique, so this is the binding). `none` models a `KeyError`. -/
def dlookup {β : Type _} (k : String) : List (String × β) → Option β
  | [] => none
  | (k', v) :: rest => if k = k' then some v else dlookup k rest

/-- `d[k] = v` on a Python dict: replace the existing binding in place,
otherwise append at the end (insertion order is preserved). -/
def dinsert {β : Type _} (k : String) (v : β) : List (String × β) → List (String × β)
  | [] => [(k, v)]
  | (k', v') :: rest => if k = k' then (k, v) :: rest else (k', v') :: dinsert k v rest

/-- `{**a, **b}`: entries of `b` override entries of `a`. -/
def dmerge {β : Type _} (a b : List (String × β)) : List (String × β) :=
  b.foldl (fun acc p => dinsert p.1 p.2 acc) a

def keysOf {β : Type _} (m : List (String × β)) : List String := m.map Prod.fst

/-- Python `needle in hay` on strings, character-list prefix test. -/
def charsLead : List Char → List Char → Bool
  | [], _ => true
  | _ :: _, [] => false
  | a :: as, b :: bs => a == b && charsLead as bs

/-- Python `needle in hay` on strings, scanning every suffix of the haystack. -/
def charsContain (needle : List Char) : List Char → Bool
  | [] => needle.isEmpty
  | c :: rest => charsLead needle (c :: rest) || charsContain needle rest

/-- Python `needle in hay` for strings. -/
def strContains (hay needle : String) : Bool :=
  charsContain needle.toList hay.toList

/-- One gate's per-ticker result record (a Python dict with optional keys;
`none` = key absent). Fields are the keys the pipeline code reads. -/
structure GateResult where
  passed : Option Bool := none
  reason : Option String := none
  close : Option ℚ := none
  sector : Option String := none
  f_score : Option ℚ := none
  mrs : Option ℚ := none
  mrs_slope : Option ℚ := none
  adx : Option ℚ := none
  pattern : Option String := none
  inst_ownership : Option ℚ := none
  status : Option String := none
  deriving DecidableEq

/-- The per-ticker slot of `full_rationale` in `SwingFilter.run_pipeline`:
gate-name keys (`gateLogs`) plus the optional `"status"` key set by the
coiling-spring tagging. -/
structure TickerLog where
  gateLogs : List (String × GateResult) := []
  status : Option String := none
  deriving DecidableEq

/-- Metadata dict of the institutional universe: `{"name": ..., "market_cap": ...,
"sector": ...}`. -/
structure MetaD where
  name : Option String := none
  market_cap : Option String := none
  sector : Option String := none
  deriving DecidableEq

/-- A value of the `sector_map` argument of `run_pipeline`: either a legacy
sector-name string or an institutional metadata dict. -/
inductive SectorVal where
  | str (s : String)
  | dict (m : MetaD)
  deriving DecidableEq

/-- The five gate objects of `SwingFilter`.  Their implementations live in the
`gates/` package, which is not part of the available sources, so they are kept
abstract: each returns the passed-ticker list and the per-ticker rationale
dict, exactly the shape `run_pipeline` consumes.  `D` is the per-ticker OHLCV
frame type, `U` the type of the sector/universe argument of Gate 1, `C` the
type of the cap/universe argument of Gate 2B. -/
structure Gates (D U C : Type _) where
  g1 : List (Ticker × D) → U → List Ticker × List (Ticker × GateResult)
  g2 : List Ticker → List Ticker × List (Ticker × GateResult)
  g2b : List Ticker → C → List Ticker × List (Ticker × GateResult)
  g3 : List (Ticker × D) → List Ticker × List (Ticker × GateResult)
  g4 : List (Ticker × D) → List Ticker × List (Ticker × GateResult)

/-- `SwingFilter._log_gate_results`: merge one gate's per-ticker results into
the main rationale under the gate's name. -/
def logGateResults (mainLog : List (Ticker × TickerLog)) (gateName : String)
    (gateResults : List (Ticker × GateResult)) : List (Ticker × TickerLog) :=
  gateResults.foldl
    (fun log p =>
      let cur := (dlookup p.1 log).getD {}
      dinsert p.1 { cur with gateLogs := dinsert gateName p.2 cur.gateLogs } log)
    mainLog

/-- `{t: ticker_data[t] for t in passed}` — `none` models the `KeyError` raised
when a gate emits a ticker absent from the batch. -/
def restrictData {D : Type _} (td : List (Ticker × D)) : List Ticker →
    Option (List (Ticker × D))
  | [] => some []
  | t :: rest =>
    match dlookup t td with
    | none => none
    | some d => (restrictData td rest).map ((t, d) :: ·)

/-- Total variant of `restrictData`, equal to it whenever every requested
ticker is present (see `restrictData_eq_of_subset`). -/
def restrictTotal {D : Type _} (td : List (Ticker × D)) (ts : List Ticker) :
    List (Ticker × D) :=
  ts.filterMap fun t => (dlookup t td).map ((t, ·))

/-- `"market_cap"` of a `sector_map` value, when that value is a metadata dict
carrying one. -/
def capOfVal : SectorVal → Option String
  | .dict m => m.market_cap
  | .str _ => none

/-- Whether the first value of `sector_map` is a dict
(`isinstance(list(sector_map.values())[0], dict)`). -/
def firstValIsDict (sm : List (Ticker × SectorVal)) : Bool :=
  match sm.head? with
  | some (_, .dict _) => true
  | _ => false

/-- The institutional-format branch of the market-cap map construction in
`run_pipeline`: `market_cap_map[ticker] = meta.get("market_cap", "SMALL")`
for every dict-valued entry. -/
def buildInstCapMap (sm : List (Ticker × SectorVal)) : List (Ticker × String) :=
  sm.foldl
    (fun acc p =>
      match p.2 with
      | .dict m => dinsert p.1 (m.market_cap.getD "SMALL") acc
      | .str _ => acc)
    []

/-- `run_pipeline` lines 66–74: extract the market-cap map from `sector_map`,
defaulting everything to `"SMALL"` in the legacy/no-metadata case. -/
def buildMarketCapMap (sector_map : Option (List (Ticker × SectorVal)))
    (passed_g2 : List Ticker) : List (Ticker × String) :=
  match sector_map with
  | some sm =>
      if !sm.isEmpty && firstValIsDict sm then buildInstCapMap sm
      else passed_g2.map (fun t => (t, "SMALL"))
  | none => passed_g2.map (fun t => (t, "SMALL"))

/-- One coiling-spring watchlist record of `run_pipeline` (lines 113–122). -/
structure SpringRec where
  ticker : Ticker
  close : ℚ
  sector : String
  reason : String
  f_score : ℚ
  mrs : ℚ
  market_cap : String
  inst_ownership : ℚ
  deriving DecidableEq

/-- Body of the coiling-spring loop of `run_pipeline` (lines 92–126), folded
over `passed_g2b`; the accumulator carries the watchlist built so far and the
rationale being status-tagged. -/
def springStep (rationale_g1 rationale_g2 rationale_g2b rationale_g3 :
      List (Ticker × GateResult))
    (market_cap_map : List (Ticker × String)) (passed_g3 : List Ticker)
    (acc : List SpringRec × List (Ticker × TickerLog)) (ticker : Ticker) :
    List SpringRec × List (Ticker × TickerLog) :=
  if ticker ∈ passed_g3 then acc
  else
    let g3_res := (dlookup ticker rationale_g3).getD {}
    let reason := g3_res.reason.getD ""
    let is_sniper_fail :=
      strContains reason "ADX" || strContains reason "RS Slope" ||
        strContains reason "RS Negative"
    if is_sniper_fail then
      let g2_res := (dlookup ticker rationale_g2).getD {}
      let g2b_res := (dlookup ticker rationale_g2b).getD {}
      let g1_res := (dlookup ticker rationale_g1).getD {}
      let cap_category := (dlookup ticker market_cap_map).getD "UNKNOWN"
      let sp : SpringRec :=
        { ticker := ticker
          close := g3_res.close.getD 0
          sector := g1_res.sector.getD "Unknown"
          reason := reason
          f_score := g2_res.f_score.getD 0
          mrs := g3_res.mrs.getD 0
          market_cap := cap_category
          inst_ownership := g2b_res.inst_ownership.getD 0 }
      let log' :=
        match dlookup ticker acc.2 with
        | some tl => dinsert ticker { tl with status := some "COILING_SPRING" } acc.2
        | none => acc.2
      (acc.1 ++ [sp], log')
    else acc

/-- `SwingFilter.run_pipeline` (src/swing_filter.py lines 29–137).  Returns
`(candidates, full_rationale, coiling_springs)`; `none` models an uncaught
exception (a `KeyError` in one of the data-restriction comprehensions). -/
def runPipeline {D : Type _}
    (G : Gates D (Option (List (Ticker × SectorVal))) (List (Ticker × String)))
    (ticker_data : List (Ticker × D))
    (sector_map : Option (List (Ticker × SectorVal))) :
    Option (List Ticker × List (Ticker × TickerLog) × List SpringRec) :=
  let pg1 := G.g1 ticker_data sector_map
  let full0 := logGateResults [] "Gate1_Spread" pg1.2
  if pg1.1.isEmpty then some ([], full0, [])
  else
    match restrictData ticker_data pg1.1 with
    | none => none
    | some _data_g1 =>
      let pg2 := G.g2 pg1.1
      let full1 := logGateResults full0 "Gate2_Fundamentals" pg2.2
      if pg2.1.isEmpty then some ([], full1, [])
      else
        let market_cap_map := buildMarketCapMap sector_map pg2.1
        let pg2b := G.g2b pg2.1 market_cap_map
        let full2 := logGateResults full1 "Gate2B_Institutional" pg2b.2
        if pg2b.1.isEmpty then some ([], full2, [])
        else
          match restrictData ticker_data pg2b.1 with
          | none => none
          | some data_g2b =>
            let pg3 := G.g3 data_g2b
            let full3 := logGateResults full2 "Gate3_Technicals" pg3.2
            let springs :=
              pg2b.1.foldl
                (springStep pg1.2 pg2.2 pg2b.2 pg3.2 market_cap_map pg3.1)
                ([], full3)
            if pg3.1.isEmpty then some ([], springs.2, springs.1)
            else
              match restrictData ticker_data pg3.1 with
              | none => none
              | some data_g3 =>
                let pg4 := G.g4 data_g3
                let full5 := logGateResults springs.2 "Gate4_Execution" pg4.2
                some (pg4.1, full5, springs.1)

/-! ## Orchestrator.run_scan (src/orchestrator.py) -/

/-- `round(float(x), 2)` — round to two decimal places (to nearest; Python
rounds ties to even, a distinction that never arises below). -/
def round2 (x : ℚ) : ℚ := (Rat.floor (x * 100 + 1 / 2) : ℚ) / 100

/-- `sl = entry - (2 * atr)` (orchestrator line 118; `ATR_STOP_MULTIPLIER = 2.0`). -/
def slOf (entry atr : ℚ) : ℚ := entry - 2 * atr

/-- `risk = entry - sl` (orchestrator line 119). -/
def riskOf (entry sl : ℚ) : ℚ := entry - sl

/-- `target = entry + (2 * risk)` (orchestrator line 120). -/
def targetOf (entry risk : ℚ) : ℚ := entry + 2 * risk

/-- Holding-period label (orchestrator line 123):
`"Swing (2-6 Weeks)" if 'VCP' in (pattern or '') else "Positional (1-3 Months)"`. -/
def periodOf (pattern : String) : String :=
  if strContains pattern "VCP" then "Swing (2-6 Weeks)" else "Positional (1-3 Months)"

/-- The `trade_meta` dict (orchestrator lines 125–131). -/
structure TradeMeta where
  entry : ℚ
  sl : ℚ
  target : ℚ
  period : String
  risk_reward : String
  deriving DecidableEq

/-- One entry of the orchestrator's `results` list (lines 138–155). -/
structure ResultRec where
  ticker : Ticker
  status : String
  name : String
  cap : String
  sector : String
  adx : Option ℚ := none
  mrs : Option ℚ := none
  mrs_slope : Option ℚ := none
  pattern : String
  reason : String
  trade : TradeMeta
  charts : String × String × String
  deriving DecidableEq

/-- Coiling-spring tagging of `g3_rationale` in `run_scan` (lines 94–99): every
Gate-2B survivor absent from `finds` gets `status = "COILING_SPRING"`, with a
stub record when Gate 3 recorded nothing for it. -/
def tagCoilingSprings (g2b_passed finds : List Ticker)
    (g3_rationale : List (Ticker × GateResult)) : List (Ticker × GateResult) :=
  g2b_passed.foldl
    (fun m t =>
      if t ∈ finds then m
      else
        match dlookup t m with
        | some r => dinsert t { r with status := some "COILING_SPRING" } m
        | none =>
            dinsert t
              { passed := some false, status := some "COILING_SPRING",
                reason := some "Technical filters not met" } m)
    g3_rationale

/-- The body of the per-ticker post-processing loop of `run_scan`
(lines 107–155).  `closeLast` stands for `df['Close'].iloc[-1]`, `atrLast` for
the `ta` library's 14-day AverageTrueRange of the frame, `chartGen` for the
chart engine; a `none` from an oracle is the exception the `except` clause
catches, making the whole ticker yield `none` (skipped). -/
def processTicker {D : Type _} (closeLast atrLast : D → Option ℚ)
    (chartGen : Ticker → D → TradeMeta → String → String → String)
    (ticker_data : List (Ticker × D)) (univ : List (Ticker × MetaD))
    (g3_rationale : List (Ticker × GateResult)) (finds : List Ticker)
    (ticker : Ticker) : Option ResultRec := do
  let df ← dlookup ticker ticker_data
  let meta := (dlookup ticker univ).getD {}
  let rat := (dlookup ticker g3_rationale).getD {}
  let entry ← closeLast df
  let atr ← atrLast df
  let sl := slOf entry atr
  let risk := riskOf entry sl
  let target := targetOf entry risk
  let pattern := rat.pattern.getD ""
  let period := periodOf pattern
  let trade_meta : TradeMeta :=
    { entry := round2 entry, sl := round2 sl, target := round2 target,
      period := period, risk_reward := "1:2" }
  let chart_daily := chartGen ticker df trade_meta pattern "1D"
  let chart_weekly := chartGen ticker df trade_meta pattern "1W"
  let chart_monthly := chartGen ticker df trade_meta pattern "1M"
  some
    { ticker := ticker
      status := if ticker ∈ finds then "BUY" else "COILING_SPRING"
      name := meta.name.getD "Unknown"
      cap := meta.market_cap.getD "SMALL"
      sector := meta.sector.getD "Diversified"
      adx := rat.adx
      mrs := rat.mrs
      mrs_slope := rat.mrs_slope
      pattern := pattern
      reason := rat.reason.getD "Consolidating"
      trade := trade_meta
      charts := (chart_daily, chart_weekly, chart_monthly) }

/-- The `results` loop of `run_scan` over all Gate-2B survivors: a ticker whose
processing raises is logged and skipped, the rest of the batch continues. -/
def assembleResults {D : Type _} (closeLast atrLast : D → Option ℚ)
    (chartGen : Ticker → D → TradeMeta → String → String → String)
    (ticker_data : List (Ticker × D)) (univ : List (Ticker × MetaD))
    (g3_rationale : List (Ticker × GateResult)) (finds : List Ticker)
    (g2b_passed : List Ticker) : List ResultRec :=
  g2b_passed.filterMap
    (processTicker closeLast atrLast chartGen ticker_data univ g3_rationale finds)

/-- The pipeline section of `Orchestrator.run_scan` (lines 75–165), from the
Gate-1 call to the snapshot payload.  Early exits (`return []`) carry no merged
rationale, hence the `Option` in the second component; the outer `none` is an
uncaught `KeyError` in the `g3_data` comprehension. -/
def runScan {D : Type _}
    (G : Gates D (List (Ticker × MetaD)) (List (Ticker × MetaD)))
    (closeLast atrLast : D → Option ℚ)
    (chartGen : Ticker → D → TradeMeta → String → String → String)
    (ticker_data : List (Ticker × D)) (univ : List (Ticker × MetaD)) :
    Option (List ResultRec × Option (List (Ticker × GateResult))) :=
  let pg1 := G.g1 ticker_data univ
  if pg1.1.isEmpty then some ([], none)
  else
    let pg2 := G.g2 pg1.1
    let pg2b := G.g2b pg2.1 univ
    if pg2b.1.isEmpty then some ([], none)
    else
      match restrictData ticker_data pg2b.1 with
      | none => none
      | some g3_data =>
        let pg3 := G.g3 g3_data
        let g3r := tagCoilingSprings pg2b.1 pg3.1 pg3.2
        let results :=
          assembleResults closeLast atrLast chartGen ticker_data univ g3r
            pg3.1 pg2b.1
        let all_rationale := dmerge (dmerge (dmerge pg1.2 pg2.2) pg2b.2) g3r
        some (results, some all_rationale)

/-! ## Spec-modelled gate contract and spec-side pipeline shape -/

/-- Modelled from the spec: the gate implementations (`gates/` package) are not
among the available sources; §2 "Each gate only ever narrows the survivor set
from the previous stage" — every gate's passed-ticker list is drawn from the
tickers it was given. -/
def NarrowGates {D U C : Type _} (G : Gates D U C) : Prop :=
  (∀ td u, (G.g1 td u).1 ⊆ keysOf td) ∧
  (∀ ts, (G.g2 ts).1 ⊆ ts) ∧
  (∀ ts c, (G.g2b ts c).1 ⊆ ts) ∧
  (∀ td, (G.g3 td).1 ⊆ keysOf td) ∧
  (∀ td, (G.g4 td).1 ⊆ keysOf td)

/-- Modelled from the spec: §3 "GateResult … Created once per instrument per
gate" — Gate 1's rationale dict only holds records for instruments of the
batch it was given. -/
def GateOneLogsInBatch {D U C : Type _} (G : Gates D U C) : Prop :=
  ∀ td u t r, (t, r) ∈ (G.g1 td u).2 → t ∈ keysOf td

/-- Spec-side pipeline shape (§4.6, §9): an ordered list of named stages, each
a function from the current survivor set to the next survivor set plus its
per-ticker results, composed by a fold that merges results into the
accumulated trail and short-circuits to an empty candidate list as soon as a
stage's survivor set is empty. -/
def foldGates :
    List (String × (List Ticker → List Ticker × List (Ticker × GateResult))) →
    List Ticker → List (Ticker × TickerLog) →
    List Ticker × List (Ticker × TickerLog)
  | [], survivors, trail => (survivors, trail)
  | (name, stage) :: rest, survivors, trail =>
    let nxt := stage survivors
    let trail' := logGateResults trail name nxt.2
    if nxt.1.isEmpty then ([], trail') else foldGates rest nxt.1 trail'

/-- The five stages of the scan, in the spec's order, each receiving only the
previous stage's survivor set (the data-bearing gates see the batch restricted
to those survivors). -/
def specStages {D : Type _}
    (G : Gates D (Option (List (Ticker × SectorVal))) (List (Ticker × String)))
    (ticker_data : List (Ticker × D))
    (sector_map : Option (List (Ticker × SectorVal))) :
    List (String × (List Ticker → List Ticker × List (Ticker × GateResult))) :=
  [("Gate1_Spread", fun _ => G.g1 ticker_data sector_map),
   ("Gate2_Fundamentals", fun s => G.g2 s),
   ("Gate2B_Institutional", fun s => G.g2b s (buildMarketCapMap sector_map s)),
   ("Gate3_Technicals", fun s => G.g3 (restrictTotal ticker_data s)),
   ("Gate4_Execution", fun s => G.g4 (restrictTotal ticker_data s))]

/-- The gate-entry part of a rationale trail (per ticker, the map
gate name → result), forgetting the coiling-spring status tags. -/
def gateEntries (log : List (Ticker × TickerLog)) :
    List (Ticker × List (String × GateResult)) :=
  log.map fun p => (p.1, p.2.gateLogs)

/-- Entry of a trail at a ticker and gate name. -/
def getEntry (log : List (Ticker × TickerLog)) (t : Ticker) (g : String) :
    Option GateResult :=
  (dlookup t log).bind fun tl => dlookup g tl.gateLogs

/-- Modelled from the spec: Gate 2B's implementation
(`gates/gate2_institutional.py`) is not among the available sources; §4.3
"Ticker with no cap tier resolved defaults to the strictest (SMALL) tier" —
the tier a ticker is evaluated under is its entry in the supplied market-cap
map, defaulting to `"SMALL"`. -/
def tierUsed (market_cap_map : List (Ticker × String)) (t : Ticker) : String :=
  (dlookup t market_cap_map).getD "SMALL"

/-- No market-cap tier is resolvable for `t` from the supplied metadata: every
entry the sector map holds for `t` (if any) lacks a `"market_cap"` value. -/
def NoCapResolvable (sector_map : Option (List (Ticker × SectorVal)))
    (t : Ticker) : Prop :=
  ∀ sm, sector_map = some sm → ∀ v, (t, v) ∈ sm → capOfVal v = none

/-! ## Concrete instances

Small closed gate assignments and batches used to evaluate the pipeline on
explicit inputs. `DF` is a two-field stand-in for a data frame, carrying just
what the orchestrator's oracles read: the last close and the 14-day ATR
(`none` = the library call raises). -/

abbrev DF := Option ℚ × Option ℚ

def wClose : DF → Option ℚ := Prod.fst

def wAtr : DF → Option ℚ := Prod.snd

def wChart : Ticker → DF → TradeMeta → String → String → String :=
  fun _ _ _ _ tf => tf

/-- An all-pass gate record. -/
def wRes : GateResult := { passed := some true }

/-- Gates that pass every instrument through, recording `wRes` for each. -/
def idGates (D : Type) :
    Gates D (Option (List (Ticker × SectorVal))) (List (Ticker × String)) where
  g1 := fun td _ => (keysOf td, td.map fun p => (p.1, wRes))
  g2 := fun ts => (ts, ts.map fun t => (t, wRes))
  g2b := fun ts _ => (ts, ts.map fun t => (t, wRes))
  g3 := fun td => (keysOf td, td.map fun p => (p.1, wRes))
  g4 := fun td => (keysOf td, td.map fun p => (p.1, wRes))

/-- All-pass gates in the orchestrator's calling convention. -/
def idGatesO : Gates DF (List (Ticker × MetaD)) (List (Ticker × MetaD)) where
  g1 := fun td _ => (keysOf td, td.map fun p => (p.1, wRes))
  g2 := fun ts => (ts, ts.map fun t => (t, wRes))
  g2b := fun ts _ => (ts, ts.map fun t => (t, wRes))
  g3 := fun td => (keysOf td, td.map fun p => (p.1, wRes))
  g4 := fun td => (keysOf td, td.map fun p => (p.1, wRes))

def wTd : List (Ticker × ℚ) := [("A", 1)]

def wTdF : List (Ticker × DF) := [("A", (some 10, some 1))]

/-- The record `processTicker` produces for `"A"` on `wTdF` with empty
universe and Gate-3 rationale and `finds = ["A"]`. -/
def wRecA : ResultRec :=
  { ticker := "A", status := "BUY", name := "Unknown", cap := "SMALL",
    sector := "Diversified", adx := none, mrs := none, mrs_slope := none,
    pattern := "", reason := "Consolidating",
    trade := { entry := 10, sl := 8, target := 14,
               period := "Positional (1-3 Months)", risk_reward := "1:2" },
    charts := ("1D", "1W", "1M") }

/-- The per-ticker trail `run_pipeline` accumulates for a ticker that passes
all five gates of `idGates`. -/
def wLogAll : TickerLog :=
  { gateLogs := [("Gate1_Spread", wRes), ("Gate2_Fundamentals", wRes),
      ("Gate2B_Institutional", wRes), ("Gate3_Technicals", wRes),
      ("Gate4_Execution", wRes)] }

def wOut : List Ticker × List (Ticker × TickerLog) × List SpringRec :=
  (["A"], [("A", wLogAll)], [])

/-- Gates that pass everything through Gate 3 but whose Gate 4 admits
nobody. -/
def cex3Gates : Gates DF (List (Ticker × MetaD)) (List (Ticker × MetaD)) :=
  { idGatesO with g4 := fun _ => ([], []) }

/-- Gates whose Gate 3 rejects everything on the trend template. -/
def cex3bGates : Gates DF (List (Ticker × MetaD)) (List (Ticker × MetaD)) :=
  { idGatesO with
    g3 := fun td =>
      ([], td.map fun p =>
        (p.1, { passed := some false, reason := some "Price below MA200" })) }

def cex3Td : List (Ticker × DF) := [("A", (some 100, some 2))]

def univ3 : List (Ticker × MetaD) :=
  [("A", { name := some "Alpha", market_cap := some "MID", sector := some "Tech" })]

def cex5r1 : GateResult := { passed := some true, reason := some "g1" }

def cex5r2 : GateResult := { passed := some true, reason := some "g2" }

def cex5r2b : GateResult := { passed := some true, reason := some "g2b" }

def cex5r3 : GateResult := { passed := some true, reason := some "g3" }

/-- Gates recording a distinct rationale record per gate, to watch what the
orchestrator's trail merge keeps. -/
def cex5Gates : Gates DF (List (Ticker × MetaD)) (List (Ticker × MetaD)) where
  g1 := fun td _ => (keysOf td, td.map fun p => (p.1, cex5r1))
  g2 := fun ts => (ts, ts.map fun t => (t, cex5r2))
  g2b := fun ts _ => (ts, ts.map fun t => (t, cex5r2b))
  g3 := fun td => (keysOf td, td.map fun p => (p.1, cex5r3))
  g4 := fun td => (keysOf td, td.map fun p => (p.1, wRes))

def cex5Td : List (Ticker × DF) := [("A", (some 10, some 1))]

/-- Batch in which `"A"`'s ATR computation raises and `"B"`'s succeeds. -/
def cex7Td : List (Ticker × DF) := [("A", (some 100, none)), ("B", (some 50, some 1))]

/-- The record the orchestrator emits for `"B"` on `cex7Td`. -/
def cex7RecB : ResultRec :=
  { ticker := "B", status := "BUY", name := "Unknown", cap := "SMALL",
    sector := "Diversified", adx := none, mrs := none, mrs_slope := none,
    pattern := "", reason := "Consolidating",
    trade := { entry := 50, sl := 48, target := 54,
               period := "Positional (1-3 Months)", risk_reward := "1:2" },
    charts := ("1D", "1W", "1M") }

/-- Batch with a zero-ATR instrument. -/
def wTd0 : List (Ticker × DF) := [("Z", (some 7, some 0))]

/-! ## Dictionary lemmas -/

theorem dlookup_dinsert_self {β : Type _} (k : String) (v : β)
    (m : List (String × β)) : dlookup k (dinsert k v m) = some v := by
  induction m with
  | nil => simp [dinsert, dlookup]
  | cons p rest ih =>
      by_cases h : k = p.1
      · simp [dinsert, dlookup, h]
      · simp [dinsert, dlookup, h, ih]

theorem dlookup_dinsert_ne {β : Type _} {k t : String} (hne : t ≠ k) (v : β)
    (m : List (String × β)) : dlookup t (dinsert k v m) = dlookup t m := by
  induction m with
  | nil => simp [dinsert, dlookup, hne]
  | cons p rest ih =>
      by_cases h : k = p.1
      · subst h
        simp [dinsert, dlookup, hne]
      · by_cases h2 : t = p.1
        · simp [dinsert, dlookup, h, h2]
        · simp [dinsert, dlookup, h, h2, ih]

theorem dlookup_isSome_of_mem_keys {β : Type _} {t : String}
    {m : List (String × β)} (h : t ∈ keysOf m) : ∃ v, dlookup t m = some v := by
  induction m with
  | nil => simp [keysOf] at h
  | cons p rest ih =>
      by_cases he : t = p.1
      · exact ⟨p.2, by simp [dlookup, he]⟩
      · have : t ∈ keysOf rest := by
          simp [keysOf] at h ⊢
          tauto
        obtain ⟨v, hv⟩ := ih this
        exact ⟨v, by simp [dlookup, he, hv]⟩

theorem restrictData_eq_of_subset {D : Type _} {td : List (Ticker × D)}
    {ts : List Ticker} (h : ts ⊆ keysOf td) :
    restrictData td ts = some (restrictTotal td ts) := by
  induction ts with
  | nil => simp [restrictData, restrictTotal]
  | cons t rest ih =>
      have ht : t ∈ keysOf td := h (List.mem_cons_self t rest)
      obtain ⟨v, hv⟩ := dlookup_isSome_of_mem_keys ht
      have hrest : rest ⊆ keysOf td := fun x hx => h (List.mem_cons_of_mem _ hx)
      simp [restrictData, restrictTotal, hv, ih hrest]

theorem keysOf_restrictTotal_subset {D : Type _} (td : List (Ticker × D))
    (ts : List Ticker) : keysOf (restrictTotal td ts) ⊆ ts := by
  intro x hx
  simp only [keysOf, restrictTotal, List.mem_map, List.mem_filterMap] at hx
  obtain ⟨p, ⟨a, ha, hf⟩, hfst⟩ := hx
  cases hdl : dlookup a td with
  | none => rw [hdl] at hf; simp at hf
  | some d =>
      rw [hdl] at hf
      simp at hf
      subst hf
      exact hfst ▸ ha

/-! ## Preservation lemmas -/

theorem gateEntries_dinsert_same_logs {t : Ticker} {m : List (Ticker × TickerLog)}
    {tl tl' : TickerLog} (hl : dlookup t m = some tl)
    (hsame : tl'.gateLogs = tl.gateLogs) :
    gateEntries (dinsert t tl' m) = gateEntries m := by
  induction m with
  | nil => simp [dlookup] at hl
  | cons p rest ih =>
      by_cases h : t = p.1
      · simp [dlookup, h] at hl
        simp [dinsert, h, gateEntries, hsame, hl]
      · simp [dlookup, h] at hl
        have := ih hl
        simp [dinsert, h, gateEntries] at this ⊢
        exact this

theorem springStep_gateEntries (r1 r2 r2b r3 : List (Ticker × GateResult))
    (mc : List (Ticker × String)) (p3 : List Ticker)
    (acc : List SpringRec × List (Ticker × TickerLog)) (t : Ticker) :
    gateEntries (springStep r1 r2 r2b r3 mc p3 acc t).2 = gateEntries acc.2 := by
  unfold springStep
  by_cases hmem : t ∈ p3
  · simp [hmem]
  · simp only [hmem, if_false]
    set reason := ((dlookup t r3).getD {}).reason.getD "" with hre
    by_cases hsn : (strContains reason "ADX" || strContains reason "RS Slope" ||
        strContains reason "RS Negative") = true
    · simp only [hsn, if_true]
      cases hl : dlookup t acc.2 with
      | none => simp
      | some tl => exact gateEntries_dinsert_same_logs hl rfl
    · simp only [hsn]
      simp at hsn
      simp [hsn]

theorem springFold_gateEntries (r1 r2 r2b r3 : List (Ticker × GateResult))
    (mc : List (Ticker × String)) (p3 : List Ticker) (l : List Ticker)
    (acc : List SpringRec × List (Ticker × TickerLog)) :
    gateEntries (l.foldl (springStep r1 r2 r2b r3 mc p3) acc).2 =
      gateEntries acc.2 := by
  induction l generalizing acc with
  | nil => rfl
  | cons t rest ih =>
      simp only [List.foldl_cons]
      rw [ih, springStep_gateEntries]

theorem dlookup_map_val {β γ : Type _} (f : β → γ) (t : String) :
    ∀ m : List (String × β),
      dlookup t (m.map fun p => (p.1, f p.2)) = (dlookup t m).map f
  | [] => rfl
  | p :: rest => by
      by_cases h : t = p.1
      · simp [dlookup, h]
      · simp [dlookup, h, dlookup_map_val f t rest]

theorem dinsert_map_val {β γ : Type _} (f : β → γ) (t : String) (v : β) :
    ∀ m : List (String × β),
      (dinsert t v m).map (fun p => (p.1, f p.2)) =
        dinsert t (f v) (m.map fun p => (p.1, f p.2))
  | [] => rfl
  | p :: rest => by
      by_cases h : t = p.1
      · simp [dinsert, h]
      · simp [dinsert, h, dinsert_map_val f t v rest]

theorem gateEntries_eq_map (m : List (Ticker × TickerLog)) :
    gateEntries m = m.map fun p => (p.1, p.2.gateLogs) := rfl

theorem logGateResults_gateEntries_congr {m m' : List (Ticker × TickerLog)}
    (g : String) (rs : List (Ticker × GateResult))
    (h : gateEntries m = gateEntries m') :
    gateEntries (logGateResults m g rs) = gateEntries (logGateResults m' g rs) := by
  induction rs generalizing m m' with
  | nil => exact h
  | cons p rest ih =>
      simp only [logGateResults, List.foldl_cons] at *
      apply ih
      have hlk : (dlookup p.1 m).map TickerLog.gateLogs =
          (dlookup p.1 m').map TickerLog.gateLogs := by
        have hm := dlookup_map_val TickerLog.gateLogs p.1 m
        have hm' := dlookup_map_val TickerLog.gateLogs p.1 m'
        rw [← hm, ← hm', ← gateEntries_eq_map, ← gateEntries_eq_map, h]
      have hcur : ((dlookup p.1 m).getD {}).gateLogs =
          ((dlookup p.1 m').getD {}).gateLogs := by
        cases hx : dlookup p.1 m with
        | none =>
            rw [hx] at hlk
            cases hy : dlookup p.1 m' with
            | none => rfl
            | some tl => rw [hy] at hlk; simp at hlk
        | some tl =>
            rw [hx] at hlk
            cases hy : dlookup p.1 m' with
            | none => rw [hy] at hlk; simp at hlk
            | some tl' =>
                rw [hy] at hlk
                simp at hlk
                simp [hlk]
      rw [gateEntries_eq_map, gateEntries_eq_map, dinsert_map_val, dinsert_map_val]
      simp only [hcur]
      rw [← gateEntries_eq_map, ← gateEntries_eq_map, h]

theorem restrictData_keys {D : Type _} {td : List (Ticker × D)} :
    ∀ {ts : List Ticker} {d : List (Ticker × D)},
      restrictData td ts = some d → keysOf d = ts := by
  intro ts
  induction ts with
  | nil => intro d h; simp [restrictData] at h; simp [← h, keysOf]
  | cons t rest ih =>
      intro d h
      simp only [restrictData] at h
      cases hl : dlookup t td with
      | none => rw [hl] at h; simp at h
      | some v =>
          rw [hl] at h
          cases hr : restrictData td rest with
          | none => rw [hr] at h; simp at h
          | some drest =>
              rw [hr] at h
              simp at h
              rw [← h]
              have hk := ih hr
              simp only [keysOf, List.map_cons] at hk ⊢
              rw [hk]

/-- Brings the possible outcomes of `run_pipeline` into view: either an early
exit with no candidates, or the Gate-4 output on the data restricted to the
Gate-3 survivors, which were computed on the data restricted to the Gate-2B
survivors. -/
theorem runPipeline_out_shape {D : Type _}
    {G : Gates D (Option (List (Ticker × SectorVal))) (List (Ticker × String))}
    {td : List (Ticker × D)} {sm : Option (List (Ticker × SectorVal))}
    {out : List Ticker × List (Ticker × TickerLog) × List SpringRec}
    (h : runPipeline G td sm = some out) :
    out.1 = [] ∨ ∃ d2b d3,
      restrictData td (G.g2b (G.g2 (G.g1 td sm).1).1
        (buildMarketCapMap sm (G.g2 (G.g1 td sm).1).1)).1 = some d2b ∧
      restrictData td (G.g3 d2b).1 = some d3 ∧
      out.1 = (G.g4 d3).1 := by
  simp only [runPipeline] at h
  split at h
  · cases h; exact Or.inl rfl
  · split at h
    · exact absurd h (by simp)
    · split at h
      · cases h; exact Or.inl rfl
      · split at h
        · cases h; exact Or.inl rfl
        · split at h
          · exact absurd h (by simp)
          · rename_i d2b h2b
            split at h
            · cases h; exact Or.inl rfl
            · split at h
              · exact absurd h (by simp)
              · rename_i d3 h3
                cases h
                exact Or.inr ⟨d2b, d3, h2b, h3, rfl⟩

/-- `processTicker` emits a record for the ticker it was given. -/
theorem processTicker_ticker {D : Type _} {closeLast atrLast : D → Option ℚ}
    {chartGen : Ticker → D → TradeMeta → String → String → String}
    {ticker_data : List (Ticker × D)} {univ : List (Ticker × MetaD)}
    {g3_rationale : List (Ticker × GateResult)} {finds : List Ticker}
    {t : Ticker} {r : ResultRec}
    (h : processTicker closeLast atrLast chartGen ticker_data univ g3_rationale
      finds t = some r) : r.ticker = t := by
  simp only [processTicker, Option.bind_eq_bind, Option.bind_eq_some] at h
  obtain ⟨df, _, h⟩ := h
  obtain ⟨e, _, h⟩ := h
  obtain ⟨a, _, h⟩ := h
  cases h
  rfl

/-- Inversion of a successful `processTicker`: the oracles all answered, and
every field of the record is determined as the loop body computes it. -/
theorem processTicker_inv {D : Type _} {cl atr : D → Option ℚ}
    {ch : Ticker → D → TradeMeta → String → String → String}
    {td : List (Ticker × D)} {un : List (Ticker × MetaD)}
    {g3r : List (Ticker × GateResult)} {finds : List Ticker} {t : Ticker}
    {r : ResultRec} (h : processTicker cl atr ch td un g3r finds t = some r) :
    ∃ df e a, dlookup t td = some df ∧ cl df = some e ∧ atr df = some a ∧
      r.ticker = t ∧
      r.status = (if t ∈ finds then "BUY" else "COILING_SPRING") ∧
      r.pattern = ((dlookup t g3r).getD {}).pattern.getD "" ∧
      r.reason = ((dlookup t g3r).getD {}).reason.getD "Consolidating" ∧
      r.trade.entry = round2 e ∧
      r.trade.sl = round2 (slOf e a) ∧
      r.trade.target = round2 (targetOf e (riskOf e (slOf e a))) ∧
      r.trade.period = periodOf r.pattern ∧
      r.trade.risk_reward = "1:2" := by
  simp only [processTicker, Option.bind_eq_bind, Option.bind_eq_some] at h
  obtain ⟨df, hdf, h⟩ := h
  obtain ⟨e, he, h⟩ := h
  obtain ⟨a, ha, h⟩ := h
  cases h
  exact ⟨df, e, a, hdf, he, ha, rfl, rfl, rfl, rfl, rfl, rfl, rfl, rfl, rfl⟩

/-- Equal gate-entry projections give equal trail entries. -/
theorem getEntry_congr {m m' : List (Ticker × TickerLog)} (t : Ticker) (g : String)
    (h : gateEntries m = gateEntries m') : getEntry m t g = getEntry m' t g := by
  unfold getEntry
  have hpr : (dlookup t m).map TickerLog.gateLogs =
      (dlookup t m').map TickerLog.gateLogs := by
    rw [← dlookup_map_val TickerLog.gateLogs t m,
      ← dlookup_map_val TickerLog.gateLogs t m',
      ← gateEntries_eq_map, ← gateEntries_eq_map, h]
  cases h1 : dlookup t m with
  | none =>
      rw [h1] at hpr
      cases h2 : dlookup t m' with
      | none => rfl
      | some tl => rw [h2] at hpr; simp at hpr
  | some tl =>
      rw [h1] at hpr
      cases h2 : dlookup t m' with
      | none => rw [h2] at hpr; simp at hpr
      | some tl' =>
          rw [h2] at hpr
          simp only [Option.map_some', Option.some.injEq] at hpr
          simp [hpr]

/-- One step of `_log_gate_results` as an equation. -/
theorem logGateResults_cons (m : List (Ticker × TickerLog)) (gname : String)
    (p : Ticker × GateResult) (rest : List (Ticker × GateResult)) :
    logGateResults m gname (p :: rest) =
      logGateResults (dinsert p.1
        { (dlookup p.1 m).getD {} with
          gateLogs := dinsert gname p.2 ((dlookup p.1 m).getD {}).gateLogs } m)
        gname rest := rfl

/-- Logging a gate under a different name leaves an entry untouched. -/
theorem getEntry_logGateResults_ne {g gname : String} (hne : g ≠ gname)
    (rs : List (Ticker × GateResult)) (m : List (Ticker × TickerLog)) (t : Ticker) :
    getEntry (logGateResults m gname rs) t g = getEntry m t g := by
  induction rs generalizing m with
  | nil => rfl
  | cons p rest ih =>
      rw [logGateResults_cons, ih]
      by_cases ht : t = p.1
      · subst ht
        unfold getEntry
        rw [dlookup_dinsert_self]
        simp only [Option.some_bind]
        rw [dlookup_dinsert_ne hne]
        cases hl : dlookup p.1 m with
        | none => simp [hl, dlookup]
        | some tl => simp [hl]
      · unfold getEntry
        rw [dlookup_dinsert_ne ht]

/-- Logging a gate leaves the slots of tickers it does not mention untouched. -/
theorem getEntry_logGateResults_not_mem {t : Ticker} {rs : List (Ticker × GateResult)}
    (hnm : t ∉ keysOf rs) (gname : String) (m : List (Ticker × TickerLog)) (g : String) :
    getEntry (logGateResults m gname rs) t g = getEntry m t g := by
  induction rs generalizing m with
  | nil => rfl
  | cons p rest ih =>
      simp only [keysOf, List.map_cons, List.mem_cons, not_or] at hnm
      rw [logGateResults_cons, ih (by simpa [keysOf] using hnm.2)]
      unfold getEntry
      rw [dlookup_dinsert_ne hnm.1]

/-- Logging a gate writes each of its result records at the gate's name. -/
theorem getEntry_logGateResults_self {rs : List (Ticker × GateResult)}
    (hnd : (keysOf rs).Nodup) {t : Ticker} {r : GateResult}
    (hdl : dlookup t rs = some r) (gname : String) (m : List (Ticker × TickerLog)) :
    getEntry (logGateResults m gname rs) t gname = some r := by
  induction rs generalizing m with
  | nil => simp [dlookup] at hdl
  | cons p rest ih =>
      simp only [keysOf, List.map_cons, List.nodup_cons] at hnd
      rw [logGateResults_cons]
      by_cases ht : t = p.1
      · subst ht
        simp only [dlookup, eq_self_iff_true, if_true] at hdl
        rw [getEntry_logGateResults_not_mem (by simpa [keysOf] using hnd.1)]
        unfold getEntry
        rw [dlookup_dinsert_self]
        simp only [Option.some_bind]
        rw [dlookup_dinsert_self]
        exact hdl
      · simp only [dlookup, if_neg ht] at hdl
        exact ih hnd.2 hdl _

/-- The coiling-spring loop never changes gate entries of the trail. -/
theorem getEntry_springFold (r1 r2 r2b r3 : List (Ticker × GateResult))
    (mc : List (Ticker × String)) (p3 : List Ticker) (l : List Ticker)
    (acc : List SpringRec × List (Ticker × TickerLog)) (t : Ticker) (g : String) :
    getEntry (l.foldl (springStep r1 r2 r2b r3 mc p3) acc).2 t g =
      getEntry acc.2 t g :=
  getEntry_congr t g (springFold_gateEntries r1 r2 r2b r3 mc p3 l acc)

/-- `{**a, **b}` leaves keys absent from `b` at their `a` value. -/
theorem dmerge_lookup_not_mem {β : Type _} {t : String} {b : List (String × β)}
    (hnm : t ∉ keysOf b) (a : List (String × β)) :
    dlookup t (dmerge a b) = dlookup t a := by
  induction b generalizing a with
  | nil => rfl
  | cons p rest ih =>
      simp only [keysOf, List.map_cons, List.mem_cons, not_or] at hnm
      simp only [dmerge, List.foldl_cons] at ih ⊢
      rw [ih (by simpa [keysOf] using hnm.2), dlookup_dinsert_ne hnm.1]

/-- `{**a, **b}` takes its value at any key of `b` from `b`: the `b` entry
replaces whatever `a` held. -/
theorem dmerge_lookup_right {β : Type _} {t : String} {b : List (String × β)}
    {v : β} (hnd : (keysOf b).Nodup) (hdl : dlookup t b = some v)
    (a : List (String × β)) : dlookup t (dmerge a b) = some v := by
  induction b generalizing a with
  | nil => simp [dlookup] at hdl
  | cons p rest ih =>
      simp only [keysOf, List.map_cons, List.nodup_cons] at hnd
      simp only [dmerge, List.foldl_cons]
      by_cases ht : t = p.1
      · subst ht
        simp only [dlookup, eq_self_iff_true, if_true] at hdl
        have := dmerge_lookup_not_mem (by simpa [keysOf] using hnd.1)
          (dinsert p.1 p.2 a)
        simp only [dmerge] at this
        rw [this, dlookup_dinsert_self]
        exact hdl
      · simp only [dlookup, if_neg ht] at hdl
        exact ih hnd.2 hdl _

/-- A ticker of `passed_g2` maps to `"SMALL"` in the legacy-format cap map. -/
theorem dlookup_const_cap {t : Ticker} {p2 : List Ticker} (ht : t ∈ p2) :
    dlookup t (p2.map fun x => (x, "SMALL")) = some "SMALL" := by
  induction p2 with
  | nil => simp at ht
  | cons a rest ih =>
      by_cases h : t = a
      · simp [dlookup, h]
      · rcases List.mem_cons.mp ht with he | hm
        · exact absurd he h
        · simp [dlookup, h, ih hm]

/-- If no entry of the institutional sector map resolves a cap for `t`, the
built cap map holds nothing for `t` or holds `"SMALL"`. -/
theorem buildInstCap_lookup (t : Ticker) (sm : List (Ticker × SectorVal)) :
    ∀ acc : List (Ticker × String),
      (∀ v, (t, v) ∈ sm → capOfVal v = none) →
      (dlookup t acc = none ∨ dlookup t acc = some "SMALL") →
      dlookup t (sm.foldl (fun acc p =>
        match p.2 with
        | .dict m => dinsert p.1 (m.market_cap.getD "SMALL") acc
        | .str _ => acc) acc) = none ∨
      dlookup t (sm.foldl (fun acc p =>
        match p.2 with
        | .dict m => dinsert p.1 (m.market_cap.getD "SMALL") acc
        | .str _ => acc) acc) = some "SMALL" := by
  induction sm with
  | nil => intro acc _ hacc; simpa using hacc
  | cons p rest ih =>
      intro acc h hacc
      simp only [List.foldl_cons]
      apply ih
      · intro v hv
        exact h v (List.mem_cons_of_mem _ hv)
      · cases hp : p.2 with
        | str s => simp only [hp]; exact hacc
        | dict m =>
            simp only [hp]
            by_cases ht : t = p.1
            · subst ht
              have hcv : capOfVal (SectorVal.dict m) = none := by
                apply h
                have hpp : p = (p.1, SectorVal.dict m) := by
                  cases p; simp at hp ⊢; exact hp
                rw [← hpp]
                exact List.mem_cons_self _ _
              simp only [capOfVal] at hcv
              right
              rw [dlookup_dinsert_self, hcv]
              rfl
            · rw [dlookup_dinsert_ne ht]
              exact hacc

/-! ## Claim theorems

The rational-arithmetic primitives are `@[irreducible]` in the library; the
concrete witness evaluations below need them to unfold. -/

attribute [local semireducible] Rat.mul Rat.inv Rat.add Rat.sub

/-- C1: for every input batch, `run_pipeline` applies the gates strictly in the
order Gate 1 (spread), Gate 2 (fundamentals), Gate 2B (institutional), Gate 3
(technicals), Gate 4 (execution), each gate receiving only the previous
stage's survivor set, and an empty survivor set at any stage terminates the
pipeline immediately with an empty candidate list while returning the
rationale accumulated from every gate that ran: assuming only the spec's gate
contract (gates narrow), the candidate list and the per-gate rationale
entries of `run_pipeline` coincide with the short-circuiting ordered fold
over the five named stages. -/
theorem claim_C1 {D : Type _}
    (G : Gates D (Option (List (Ticker × SectorVal))) (List (Ticker × String)))
    (td : List (Ticker × D)) (sm : Option (List (Ticker × SectorVal)))
    (hN : NarrowGates G) :
    (runPipeline G td sm).map (fun x => (x.1, gateEntries x.2.1)) =
      some ((foldGates (specStages G td sm) (keysOf td) []).1,
        gateEntries (foldGates (specStages G td sm) (keysOf td) []).2) := by
  obtain ⟨h1, h2, h2b, h3, _h4⟩ := hN
  have hs1 : (G.g1 td sm).1 ⊆ keysOf td := h1 td sm
  have hs2 : (G.g2 (G.g1 td sm).1).1 ⊆ keysOf td := fun x hx => hs1 (h2 _ hx)
  have hs2b : (G.g2b (G.g2 (G.g1 td sm).1).1
      (buildMarketCapMap sm (G.g2 (G.g1 td sm).1).1)).1 ⊆ keysOf td :=
    fun x hx => hs2 (h2b _ _ hx)
  have hs3 : (G.g3 (restrictTotal td (G.g2b (G.g2 (G.g1 td sm).1).1
      (buildMarketCapMap sm (G.g2 (G.g1 td sm).1).1)).1)).1 ⊆ keysOf td :=
    fun x hx => hs2b (keysOf_restrictTotal_subset td _ (h3 _ hx))
  simp only [runPipeline, specStages, foldGates,
    restrictData_eq_of_subset hs1, restrictData_eq_of_subset hs2b,
    restrictData_eq_of_subset hs3]
  by_cases he1 : (G.g1 td sm).1.isEmpty
  · simp [he1, gateEntries]
  · simp only [he1, if_false, Bool.false_eq_true]
    by_cases he2 : (G.g2 (G.g1 td sm).1).1.isEmpty
    · simp [he2]
    · simp only [he2, if_false, Bool.false_eq_true]
      by_cases he2b : (G.g2b (G.g2 (G.g1 td sm).1).1
          (buildMarketCapMap sm (G.g2 (G.g1 td sm).1).1)).1.isEmpty
      · simp [he2b]
      · simp only [he2b, if_false, Bool.false_eq_true]
        by_cases he3 : (G.g3 (restrictTotal td (G.g2b (G.g2 (G.g1 td sm).1).1
            (buildMarketCapMap sm (G.g2 (G.g1 td sm).1).1)).1)).1.isEmpty
        · simp only [he3, if_true, Option.map_some']
          rw [springFold_gateEntries]
        · simp only [he3, if_false, Bool.false_eq_true, Option.map_some']
          by_cases he4 : (G.g4 (restrictTotal td (G.g3 (restrictTotal td
              (G.g2b (G.g2 (G.g1 td sm).1).1
                (buildMarketCapMap sm (G.g2 (G.g1 td sm).1).1)).1)).1)).1.isEmpty
          · simp only [he4, if_true]
            rw [List.isEmpty_iff.mp he4]
            exact congrArg _ (congrArg _
              (logGateResults_gateEntries_congr _ _ (springFold_gateEntries _ _ _ _ _ _ _ _)))
          · simp only [he4, if_false, Bool.false_eq_true, foldGates]
            exact congrArg _ (congrArg _
              (logGateResults_gateEntries_congr _ _ (springFold_gateEntries _ _ _ _ _ _ _ _)))

/-- C2: every ticker in the final candidate output of the orchestrator is a
member of the Gate-2B survivor set (the results loop runs over exactly those),
and — given the spec's narrowing gate contract — each stage's survivor set in
`run_pipeline` is a subset of the previous stage's, with the final candidate
list contained in the Gate-2B survivor set. -/
theorem claim_C2 :
    (∀ (D : Type) (closeLast atrLast : D → Option ℚ)
        (chartGen : Ticker → D → TradeMeta → String → String → String)
        (td : List (Ticker × D)) (un : List (Ticker × MetaD))
        (g3r : List (Ticker × GateResult)) (finds g2bp : List Ticker)
        (r : ResultRec),
        r ∈ assembleResults closeLast atrLast chartGen td un g3r finds g2bp →
        r.ticker ∈ g2bp) ∧
    (∀ (D : Type)
        (G : Gates D (Option (List (Ticker × SectorVal))) (List (Ticker × String)))
        (td : List (Ticker × D)) (sm : Option (List (Ticker × SectorVal)))
        (out : List Ticker × List (Ticker × TickerLog) × List SpringRec),
        NarrowGates G → runPipeline G td sm = some out →
        out.1 ⊆ (G.g2b (G.g2 (G.g1 td sm).1).1
            (buildMarketCapMap sm (G.g2 (G.g1 td sm).1).1)).1 ∧
        (G.g2b (G.g2 (G.g1 td sm).1).1
            (buildMarketCapMap sm (G.g2 (G.g1 td sm).1).1)).1 ⊆
          (G.g2 (G.g1 td sm).1).1 ∧
        (G.g2 (G.g1 td sm).1).1 ⊆ (G.g1 td sm).1 ∧
        (G.g1 td sm).1 ⊆ keysOf td) := by
  constructor
  · intro D closeLast atrLast chartGen td un g3r finds g2bp r hr
    simp only [assembleResults, List.mem_filterMap] at hr
    obtain ⟨t, ht, hp⟩ := hr
    rw [processTicker_ticker hp]
    exact ht
  · intro D G td sm out hN h
    obtain ⟨h1, h2, h2b, h3, h4⟩ := hN
    refine ⟨?_, h2b _ _, h2 _, h1 td sm⟩
    rcases runPipeline_out_shape h with hout | ⟨d2b, d3, hr2b, hr3, hout⟩
    · rw [hout]; exact List.nil_subset _
    · rw [hout]
      intro x hx
      have hx3 : x ∈ (G.g3 d2b).1 := by
        have := h4 d3 hx
        rw [restrictData_keys hr3] at this
        exact this
      have := h3 d2b hx3
      rw [restrictData_keys hr2b] at this
      exact this

theorem idGates_narrow (D : Type) : NarrowGates (idGates D) :=
  ⟨fun _ _ _ hx => hx, fun _ _ hx => hx, fun _ _ _ hx => hx,
   fun _ _ hx => hx, fun _ _ hx => hx⟩

theorem idGates_logs (D : Type) : GateOneLogsInBatch (idGates D) := by
  intro td u t r h
  simp only [idGates, List.mem_map] at h
  obtain ⟨p, hp, heq⟩ := h
  have : p.1 = t := congrArg Prod.fst heq
  rw [← this]
  exact List.mem_map_of_mem Prod.fst hp

/-- C1 witness: the pipeline/fold agreement evaluated on the all-pass gates
and a one-instrument batch. -/
theorem claim_C1_witness :
    (runPipeline (idGates ℚ) wTd none).map (fun x => (x.1, gateEntries x.2.1)) =
      some ((foldGates (specStages (idGates ℚ) wTd none) (keysOf wTd) []).1,
        gateEntries (foldGates (specStages (idGates ℚ) wTd none) (keysOf wTd) []).2) :=
  claim_C1 (idGates ℚ) wTd none (idGates_narrow ℚ)

/-- C2 witness: the orchestrator's emitted record for `"A"` belongs to the
Gate-2B survivor set `["A"]`, and the pipeline's candidate list on the
all-pass gates is contained in the Gate-2B survivor set. -/
theorem claim_C2_witness :
    wRecA.ticker ∈ ["A"] ∧
    wOut.1 ⊆ ((idGates ℚ).g2b ((idGates ℚ).g2 ((idGates ℚ).g1 wTd none).1).1
      (buildMarketCapMap none ((idGates ℚ).g2 ((idGates ℚ).g1 wTd none).1).1)).1 :=
  ⟨claim_C2.1 DF wClose wAtr wChart wTdF [] [] ["A"] ["A"] wRecA (by decide),
   (claim_C2.2 ℚ (idGates ℚ) wTd none wOut (idGates_narrow ℚ) (by decide)).1⟩

/-- C4: on the empty input batch the pipeline raises nothing and returns an
empty candidate list with an empty rationale trail (and an empty watchlist),
given the spec's contract that Gate 1 only emits survivors and records for
instruments of its input batch. -/
theorem claim_C4 {D : Type _}
    (G : Gates D (Option (List (Ticker × SectorVal))) (List (Ticker × String)))
    (sm : Option (List (Ticker × SectorVal)))
    (hN : NarrowGates G) (hL : GateOneLogsInBatch G) :
    runPipeline G ([] : List (Ticker × D)) sm = some ([], [], []) := by
  have h11 : (G.g1 ([] : List (Ticker × D)) sm).1 = [] := by
    apply List.eq_nil_iff_forall_not_mem.mpr
    intro x hx
    have := hN.1 [] sm hx
    simp [keysOf] at this
  have h12 : (G.g1 ([] : List (Ticker × D)) sm).2 = [] := by
    cases hc : (G.g1 ([] : List (Ticker × D)) sm).2 with
    | nil => rfl
    | cons p rest =>
        have hm : (p.1, p.2) ∈ (G.g1 ([] : List (Ticker × D)) sm).2 := by
          rw [hc]; exact List.mem_cons_self _ _
        have := hL [] sm p.1 p.2 hm
        simp [keysOf] at this
  simp [runPipeline, h11, h12, logGateResults]

/-- C4 witness: the empty batch evaluated on the all-pass gates. -/
theorem claim_C4_witness :
    runPipeline (idGates ℚ) ([] : List (Ticker × ℚ)) none = some ([], [], []) :=
  claim_C4 (idGates ℚ) none (idGates_narrow ℚ) (idGates_logs ℚ)

/-- C6: for every Gate-2B survivor the orchestrator processes, the stop is
`close − 2 × ATR(14)`, the target is exactly `entry + 2 × (entry − stop)`, and
the reward/risk ratio is exactly 2 whenever `stop < entry` (the emitted fields
carry these values rounded to two decimals). -/
theorem claim_C6 {D : Type _} (cl atr : D → Option ℚ)
    (ch : Ticker → D → TradeMeta → String → String → String)
    (td : List (Ticker × D)) (un : List (Ticker × MetaD))
    (g3r : List (Ticker × GateResult)) (finds : List Ticker) (t : Ticker)
    (r : ResultRec) (df : D) (e a : ℚ)
    (hdf : dlookup t td = some df) (hc : cl df = some e) (ha : atr df = some a)
    (h : processTicker cl atr ch td un g3r finds t = some r) :
    slOf e a = e - 2 * a ∧
    r.trade.sl = round2 (slOf e a) ∧
    targetOf e (riskOf e (slOf e a)) = e + 2 * (e - slOf e a) ∧
    r.trade.target = round2 (targetOf e (riskOf e (slOf e a))) ∧
    (slOf e a < e →
      (targetOf e (riskOf e (slOf e a)) - e) / (e - slOf e a) = 2) := by
  obtain ⟨df', e', a', hdf', hc', ha', _, _, _, _, _, hsl, htg, _, _⟩ :=
    processTicker_inv h
  rw [hdf] at hdf'; cases hdf'
  rw [hc] at hc'; cases hc'
  rw [ha] at ha'; cases ha'
  refine ⟨rfl, hsl, rfl, htg, ?_⟩
  intro hlt
  have hne : e - slOf e a ≠ 0 := sub_ne_zero.mpr (ne_of_gt hlt)
  have h2 : targetOf e (riskOf e (slOf e a)) - e = 2 * (e - slOf e a) := by
    unfold targetOf riskOf
    ring
  rw [h2, mul_div_assoc, div_self hne, mul_one]

/-- C6 witness: the concrete instrument at close 10, ATR 1 (stop 8, target 14,
reward/risk 2). -/
theorem claim_C6_witness :
    slOf 10 1 = 10 - 2 * 1 ∧
    wRecA.trade.sl = round2 (slOf 10 1) ∧
    targetOf 10 (riskOf 10 (slOf 10 1)) = 10 + 2 * (10 - slOf 10 1) ∧
    wRecA.trade.target = round2 (targetOf 10 (riskOf 10 (slOf 10 1))) ∧
    (slOf 10 1 < 10 →
      (targetOf 10 (riskOf 10 (slOf 10 1)) - 10) / (10 - slOf 10 1) = 2) :=
  claim_C6 wClose wAtr wChart wTdF [] [] ["A"] "A" wRecA (some 10, some 1) 10 1
    (by decide) rfl rfl (by decide)

/-- C8: a ticker for which no market-cap tier is resolvable from the supplied
metadata is evaluated by Gate 2B under the strictest tier, `"SMALL"` — both
through the cap map `run_pipeline` builds (legacy format, ticker missing, or
metadata without a `"market_cap"` key) and through the gate's own default. -/
theorem claim_C8 (sm : Option (List (Ticker × SectorVal))) (p2 : List Ticker)
    (t : Ticker) (ht : t ∈ p2) (h : NoCapResolvable sm t) :
    tierUsed (buildMarketCapMap sm p2) t = "SMALL" := by
  cases sm with
  | none => simp only [tierUsed, buildMarketCapMap, dlookup_const_cap ht, Option.getD_some]
  | some s =>
      simp only [tierUsed, buildMarketCapMap]
      by_cases hc : (!s.isEmpty && firstValIsDict s) = true
      · rw [if_pos hc]
        unfold buildInstCapMap
        rcases buildInstCap_lookup t s [] (h s rfl) (Or.inl rfl) with h1 | h1 <;>
          rw [h1] <;> rfl
      · rw [if_neg hc, dlookup_const_cap ht]; rfl

/-- C8 witness: a legacy-format sector map resolves no tier, and the ticker is
evaluated as `"SMALL"`. -/
theorem claim_C8_witness :
    ("A" : Ticker) ∈ ["A"] ∧
    tierUsed (buildMarketCapMap (some [("A", SectorVal.str "Tech")]) ["A"]) "A" =
      "SMALL" :=
  ⟨by decide, claim_C8 _ _ _ (by decide)
    (by
      intro sm' hsm' v hv
      cases hsm'
      simp at hv
      rw [hv]
      rfl)⟩

/-- C9: the holding-period label is the short-horizon `"Swing (2-6 Weeks)"`
exactly when the detected pattern string contains `"VCP"`, and
`"Positional (1-3 Months)"` otherwise, including when no pattern was detected;
and every emitted record's period is derived from its pattern this way. -/
theorem claim_C9 :
    (∀ p : String,
      (periodOf p = "Swing (2-6 Weeks)" ↔ strContains p "VCP" = true) ∧
      (periodOf p = "Positional (1-3 Months)" ↔ strContains p "VCP" = false)) ∧
    periodOf "" = "Positional (1-3 Months)" ∧
    (∀ (D : Type) (cl atr : D → Option ℚ)
      (ch : Ticker → D → TradeMeta → String → String → String)
      (td : List (Ticker × D)) (un : List (Ticker × MetaD))
      (g3r : List (Ticker × GateResult)) (finds : List Ticker) (t : Ticker)
      (r : ResultRec),
      processTicker cl atr ch td un g3r finds t = some r →
      r.trade.period = periodOf r.pattern) := by
  have hne : ("Swing (2-6 Weeks)" : String) ≠ "Positional (1-3 Months)" := by decide
  refine ⟨?_, by decide, ?_⟩
  · intro p
    by_cases h : strContains p "VCP" = true
    · rw [periodOf, if_pos h]
      exact ⟨⟨fun _ => h, fun _ => rfl⟩,
        ⟨fun he => absurd he hne, fun hf => by rw [h] at hf; cases hf⟩⟩
    · have hf : strContains p "VCP" = false := by simpa using h
      rw [periodOf, if_neg h]
      exact ⟨iff_of_false (Ne.symm hne) h, iff_of_true rfl hf⟩
  · intro D cl atr ch td un g3r finds t r h
    obtain ⟨_, _, _, _, _, _, _, _, _, _, _, _, _, hper, _⟩ := processTicker_inv h
    exact hper

/-- C9 witness: the emitted record for `"A"` carries the period derived from
its pattern, and a VCP pattern string yields the Swing label. -/
theorem claim_C9_witness :
    wRecA.trade.period = periodOf wRecA.pattern ∧
    periodOf "VCP_Tight" = "Swing (2-6 Weeks)" :=
  ⟨claim_C9.2.2 DF wClose wAtr wChart wTdF [] [] ["A"] "A" wRecA (by decide),
   (claim_C9.1 "VCP_Tight").1.mpr (by decide)⟩

/-- C10: every emitted candidate's `risk_reward` field is the constant string
`"1:2"` regardless of the computed entry/stop/target; entry, stop and target
are emitted rounded to two decimals; and nothing rejects `stop ≥ entry` — an
instrument with ATR 0 is still emitted, with stop = entry and target = entry. -/
theorem claim_C10 :
    (∀ (D : Type) (cl atr : D → Option ℚ)
        (ch : Ticker → D → TradeMeta → String → String → String)
        (td : List (Ticker × D)) (un : List (Ticker × MetaD))
        (g3r : List (Ticker × GateResult)) (finds : List Ticker) (t : Ticker)
        (r : ResultRec),
        processTicker cl atr ch td un g3r finds t = some r →
        r.trade.risk_reward = "1:2" ∧
        ∃ df e a, dlookup t td = some df ∧ cl df = some e ∧ atr df = some a ∧
          r.trade.entry = round2 e ∧ r.trade.sl = round2 (slOf e a) ∧
          r.trade.target = round2 (targetOf e (riskOf e (slOf e a)))) ∧
    (∀ (D : Type) (cl atr : D → Option ℚ)
        (ch : Ticker → D → TradeMeta → String → String → String)
        (td : List (Ticker × D)) (un : List (Ticker × MetaD))
        (g3r : List (Ticker × GateResult)) (finds : List Ticker) (t : Ticker)
        (df : D) (e : ℚ),
        dlookup t td = some df → cl df = some e → atr df = some 0 →
        ∃ r, processTicker cl atr ch td un g3r finds t = some r ∧
          r.trade.entry = round2 e ∧ r.trade.sl = round2 e ∧
          r.trade.target = round2 e ∧ r.trade.risk_reward = "1:2") := by
  constructor
  · intro D cl atr ch td un g3r finds t r h
    obtain ⟨df, e, a, hdf, hc, ha, _, _, _, _, hent, hsl, htg, _, hrr⟩ :=
      processTicker_inv h
    exact ⟨hrr, df, e, a, hdf, hc, ha, hent, hsl, htg⟩
  · intro D cl atr ch td un g3r finds t df e hdf hc ha
    obtain ⟨r, hr⟩ : ∃ r, processTicker cl atr ch td un g3r finds t = some r := by
      simp only [processTicker, Option.bind_eq_bind, hdf, Option.some_bind, hc, ha]
      exact ⟨_, rfl⟩
    obtain ⟨df', e', a', hdf', hc', ha', _, _, _, _, hent, hsl, htg, _, hrr⟩ :=
      processTicker_inv hr
    rw [hdf] at hdf'; cases hdf'
    rw [hc] at hc'; cases hc'
    rw [ha] at ha'; cases ha'
    refine ⟨r, hr, hent, ?_, ?_, hrr⟩
    · rw [hsl]
      congr 1
      unfold slOf
      ring
    · rw [htg]
      congr 1
      unfold targetOf riskOf slOf
      ring

/-- C10 witness: the zero-ATR instrument at close 7 is emitted with
entry = stop = target = 7 and the constant `"1:2"` ratio. -/
theorem claim_C10_witness :
    (processTicker wClose wAtr wChart wTd0 [] [] [] "Z").map
      (fun r => (r.trade.entry, r.trade.sl, r.trade.target, r.trade.risk_reward)) =
      some (round2 7, round2 7, round2 7, "1:2") := by
  obtain ⟨r, hr, h1, h2, h3, h4⟩ :=
    claim_C10.2 DF wClose wAtr wChart wTd0 [] [] [] "Z" (some 7, some 0) 7
      (by decide) rfl rfl
  rw [hr]
  simp [h1, h2, h3, h4]

theorem idGatesO_narrow : NarrowGates idGatesO :=
  ⟨fun _ _ _ hx => hx, fun _ _ hx => hx, fun _ _ _ hx => hx,
   fun _ _ hx => hx, fun _ _ hx => hx⟩

/-- Brings the shape of a full (non-early-exit) `run_scan` into view: the
results come from the per-ticker loop over the Gate-2B survivors with the
tagged Gate-3 rationale, and the merged trail is the right-biased dict merge
of the four per-gate rationales. -/
theorem runScan_out_shape {D : Type _}
    {G : Gates D (List (Ticker × MetaD)) (List (Ticker × MetaD))}
    {cl atr : D → Option ℚ}
    {ch : Ticker → D → TradeMeta → String → String → String}
    {td : List (Ticker × D)} {un : List (Ticker × MetaD)}
    {res : List ResultRec} {ar : List (Ticker × GateResult)}
    (h : runScan G cl atr ch td un = some (res, some ar)) :
    ∃ d2b, restrictData td (G.g2b (G.g2 (G.g1 td un).1).1 un).1 = some d2b ∧
      res = assembleResults cl atr ch td un
        (tagCoilingSprings (G.g2b (G.g2 (G.g1 td un).1).1 un).1 (G.g3 d2b).1
          (G.g3 d2b).2) (G.g3 d2b).1 (G.g2b (G.g2 (G.g1 td un).1).1 un).1 ∧
      ar = dmerge (dmerge (dmerge (G.g1 td un).2 (G.g2 (G.g1 td un).1).2)
          (G.g2b (G.g2 (G.g1 td un).1).1 un).2)
        (tagCoilingSprings (G.g2b (G.g2 (G.g1 td un).1).1 un).1 (G.g3 d2b).1
          (G.g3 d2b).2) := by
  simp only [runScan] at h
  split at h
  · simp at h
  · split at h
    · simp at h
    · split at h
      · exact absurd h (by simp)
      · rename_i d2b h2b
        simp only [Option.some.injEq, Prod.mk.injEq] at h
        exact ⟨d2b, h2b, h.1.symm, h.2.symm⟩

/-- C3 (amended): in the final output of `run_scan`, a candidate's status is
`"BUY"` exactly when the ticker passed Gate 3 — Gate 4 is never invoked on the
scan path — and `"COILING_SPRING"` exactly when the ticker cleared Gate 2B but
failed Gate 3, for any reason; trend-template failures are emitted as
`COILING_SPRING` candidates rather than excluded. -/
theorem claim_C3 {D : Type} (G : Gates D (List (Ticker × MetaD)) (List (Ticker × MetaD)))
    (cl atr : D → Option ℚ)
    (ch : Ticker → D → TradeMeta → String → String → String)
    (td : List (Ticker × D)) (un : List (Ticker × MetaD))
    (res : List ResultRec) (ar : List (Ticker × GateResult))
    (hN : NarrowGates G) (h : runScan G cl atr ch td un = some (res, some ar))
    (r : ResultRec) (hr : r ∈ res) :
    (r.status = "BUY" ↔
      r.ticker ∈ (G.g3 (restrictTotal td (G.g2b (G.g2 (G.g1 td un).1).1 un).1)).1) ∧
    (r.status = "COILING_SPRING" ↔
      r.ticker ∉ (G.g3 (restrictTotal td (G.g2b (G.g2 (G.g1 td un).1).1 un).1)).1) := by
  obtain ⟨d2b, h2b, hres, _⟩ := runScan_out_shape h
  have hsub : (G.g2b (G.g2 (G.g1 td un).1).1 un).1 ⊆ keysOf td := by
    obtain ⟨h1, h2, h2b', _, _⟩ := hN
    exact fun x hx => h1 td un (h2 _ (h2b' _ _ hx))
  rw [restrictData_eq_of_subset hsub] at h2b
  have hd := Option.some.inj h2b
  rw [hd]
  subst hres
  simp only [assembleResults, List.mem_filterMap] at hr
  obtain ⟨u, _, hp⟩ := hr
  obtain ⟨_, _, _, _, _, _, hticker, hstatus, _, _, _, _, _, _, _⟩ :=
    processTicker_inv hp
  rw [hticker, hstatus]
  by_cases hm : u ∈ (G.g3 d2b).1
  · rw [if_pos hm]
    exact ⟨iff_of_true rfl hm, iff_of_false (by decide) (not_not_intro hm)⟩
  · rw [if_neg hm]
    exact ⟨iff_of_false (by decide) hm, iff_of_true rfl hm⟩

/-- C3 counterexample: with a Gate 4 that admits nobody, `run_scan` still
emits `"A"` with status `"BUY"` (Gate 4 never runs and is not cleared); and
with a Gate 3 that rejects `"A"` on the trend template, `"A"` is still emitted
as a `COILING_SPRING` candidate instead of being excluded. -/
theorem claim_C3_counterexample :
    (runScan cex3Gates wClose wAtr wChart cex3Td univ3).map
        (fun p => p.1.map fun r => (r.ticker, r.status)) = some [("A", "BUY")] ∧
    (cex3Gates.g4 (restrictTotal cex3Td (cex3Gates.g3 (restrictTotal cex3Td
      (cex3Gates.g2b (cex3Gates.g2 (cex3Gates.g1 cex3Td univ3).1).1 univ3).1)).1)).1 =
      [] ∧
    (runScan cex3bGates wClose wAtr wChart cex3Td univ3).map
        (fun p => p.1.map fun r => (r.ticker, r.status, r.reason)) =
      some [("A", "COILING_SPRING", "Price below MA200")] :=
  ⟨by decide, by decide, by decide⟩

/-- C3 witness: on the all-pass gates the emitted record for `"A"` is `"BUY"`
exactly because `"A"` passed Gate 3. -/
theorem claim_C3_witness :
    (wRecA.status = "BUY" ↔
      wRecA.ticker ∈ (idGatesO.g3 (restrictTotal wTdF
        (idGatesO.g2b (idGatesO.g2 (idGatesO.g1 wTdF []).1).1 []).1)).1) ∧
    (wRecA.status = "COILING_SPRING" ↔
      wRecA.ticker ∉ (idGatesO.g3 (restrictTotal wTdF
        (idGatesO.g2b (idGatesO.g2 (idGatesO.g1 wTdF []).1).1 []).1)).1) :=
  claim_C3 idGatesO wClose wAtr wChart wTdF [] [wRecA] [("A", wRes)]
    idGatesO_narrow (by decide) wRecA (by decide)

/-- C5 (amended): in `SwingFilter.run_pipeline` the rationale trail is keyed
by ticker then gate name and is only ever extended — a `(ticker, gate)` entry
written by Gate 1 survives, unchanged, into the final trail of every possible
run (later gates log under distinct names, and the coiling-spring tagging
touches only the separate status key).  In `Orchestrator.run_scan`, by
contrast, the snapshot trail merges the flat per-gate dicts at ticker level,
so for a key present in a later dict the merged trail holds the later record —
the earlier gate's record for that ticker is replaced, not retained. -/
theorem claim_C5 :
    (∀ (D : Type)
        (G : Gates D (Option (List (Ticker × SectorVal))) (List (Ticker × String)))
        (td : List (Ticker × D)) (sm : Option (List (Ticker × SectorVal)))
        (out : List Ticker × List (Ticker × TickerLog) × List SpringRec)
        (t : Ticker) (r : GateResult),
        runPipeline G td sm = some out →
        (keysOf (G.g1 td sm).2).Nodup →
        dlookup t (G.g1 td sm).2 = some r →
        getEntry out.2.1 t "Gate1_Spread" = some r) ∧
    (∀ (a b : List (Ticker × GateResult)) (t : Ticker) (v : GateResult),
        (keysOf b).Nodup → dlookup t b = some v →
        dlookup t (dmerge a b) = some v) := by
  constructor
  · intro D G td sm out t r h hnd hdl
    have hg12 : ("Gate1_Spread" : String) ≠ "Gate2_Fundamentals" := by decide
    have hg12b : ("Gate1_Spread" : String) ≠ "Gate2B_Institutional" := by decide
    have hg13 : ("Gate1_Spread" : String) ≠ "Gate3_Technicals" := by decide
    have hg14 : ("Gate1_Spread" : String) ≠ "Gate4_Execution" := by decide
    simp only [runPipeline] at h
    split at h
    · cases h
      exact getEntry_logGateResults_self hnd hdl _ _
    · split at h
      · exact absurd h (by simp)
      · split at h
        · cases h
          exact (getEntry_logGateResults_ne hg12 _ _ _).trans
            (getEntry_logGateResults_self hnd hdl _ _)
        · split at h
          · cases h
            exact (getEntry_logGateResults_ne hg12b _ _ _).trans
              ((getEntry_logGateResults_ne hg12 _ _ _).trans
                (getEntry_logGateResults_self hnd hdl _ _))
          · split at h
            · exact absurd h (by simp)
            · split at h
              · cases h
                exact (getEntry_springFold _ _ _ _ _ _ _ _ t _).trans
                  ((getEntry_logGateResults_ne hg13 _ _ _).trans
                    ((getEntry_logGateResults_ne hg12b _ _ _).trans
                      ((getEntry_logGateResults_ne hg12 _ _ _).trans
                        (getEntry_logGateResults_self hnd hdl _ _))))
              · split at h
                · exact absurd h (by simp)
                · cases h
                  exact (getEntry_logGateResults_ne hg14 _ _ _).trans
                    ((getEntry_springFold _ _ _ _ _ _ _ _ t _).trans
                      ((getEntry_logGateResults_ne hg13 _ _ _).trans
                        ((getEntry_logGateResults_ne hg12b _ _ _).trans
                          ((getEntry_logGateResults_ne hg12 _ _ _).trans
                            (getEntry_logGateResults_self hnd hdl _ _)))))
  · intro a b t v hnd hdl
    exact dmerge_lookup_right hnd hdl a

/-- C5 counterexample: with per-gate-distinct records, Gate 1 writes a record
for `"A"`, yet `run_scan`'s merged trail maps `"A"` to a single record — the
Gate-3 one — and the Gate-1 record is gone: the entry was replaced, and no
separate per-gate entries are retained. -/
theorem claim_C5_counterexample :
    (cex5Gates.g1 cex5Td []).2 = [("A", cex5r1)] ∧
    (runScan cex5Gates wClose wAtr wChart cex5Td []).map Prod.snd =
      some (some [("A", cex5r3)]) ∧
    cex5r3 ≠ cex5r1 :=
  ⟨rfl, by decide, by decide⟩

/-- C5 witness: on the all-pass gates, the Gate-1 record for `"A"` survives
into `run_pipeline`'s final trail; and a concrete right-biased merge keeps the
later dict's record. -/
theorem claim_C5_witness :
    getEntry wOut.2.1 "A" "Gate1_Spread" = some wRes ∧
    dlookup "A" (dmerge [("A", cex5r1)] [("A", cex5r3)]) = some cex5r3 :=
  ⟨claim_C5.1 ℚ (idGates ℚ) wTd none wOut "A" wRes (by decide) (by decide)
    (by decide),
   claim_C5.2 [("A", cex5r1)] [("A", cex5r3)] "A" cex5r3 (by decide) (by decide)⟩

/-- C7 (amended): a per-instrument failure in the post-processing loop of
`run_scan` is caught for that instrument alone — the instrument is silently
dropped from the results and the remaining instruments are processed — but no
failed GateResult is recorded in the rationale trail for it (the trail is
built from the gate rationales only). -/
theorem claim_C7 {D : Type} (cl atr : D → Option ℚ)
    (ch : Ticker → D → TradeMeta → String → String → String)
    (td : List (Ticker × D)) (un : List (Ticker × MetaD))
    (g3r : List (Ticker × GateResult)) (finds : List Ticker) (t : Ticker)
    (h : processTicker cl atr ch td un g3r finds t = none) :
    (∀ rest, assembleResults cl atr ch td un g3r finds (t :: rest) =
      assembleResults cl atr ch td un g3r finds rest) ∧
    (∀ l r, r ∈ assembleResults cl atr ch td un g3r finds l → r.ticker ≠ t) := by
  constructor
  · intro rest
    simp [assembleResults, List.filterMap_cons, h]
  · intro l r hr hq
    simp only [assembleResults, List.mem_filterMap] at hr
    obtain ⟨u, _, hp⟩ := hr
    rw [processTicker_ticker hp] at hq
    subst hq
    rw [h] at hp
    cases hp

/-- C7 counterexample: `"A"`'s ATR computation raises, `"B"`'s succeeds: the
scan returns only `"B"`'s record (the batch was not aborted), and the merged
rationale's only record for `"A"` is the all-pass gate record with
`passed = true` — no failed GateResult with a generic reason was recorded. -/
theorem claim_C7_counterexample :
    runScan idGatesO wClose wAtr wChart cex7Td [] =
      some ([cex7RecB], some [("A", wRes), ("B", wRes)]) ∧
    wRes.passed = some true :=
  ⟨by decide, rfl⟩

/-- C7 witness: the failing instrument `"A"` is skipped and the loop continues
with the rest of the batch. -/
theorem claim_C7_witness :
    assembleResults wClose wAtr wChart cex7Td [] [] [] ("A" :: ["B"]) =
      assembleResults wClose wAtr wChart cex7Td [] [] [] ["B"] :=
  (claim_C7 wClose wAtr wChart cex7Td [] [] [] "A" (by decide)).1 ["B"]

end QS
